import Mathlib

/-!
Verification of the declaration-tracking / idempotence core of
`linkml_runtime/utils/dataclass_patch.py`.

The source patches `dataclasses.dataclass`. Its `wrap` closure (lines 66-76)
keeps, on each class object, a class attribute `__declared_dataclasses__`
holding the set of `id(...)` values of the classes that were directly
submitted.  `getattr` on a class follows the class's attribute lookup order
(the MRO), so a subclass that was never submitted sees its nearest ancestor's
set.  `is_direct_dataclass` (lines 87-89) answers whether `id(cls)` is in the
reachable set.

Embedding choices:
  * a class object is identified with its identity token `id(cls)` (a `Nat`);
  * the attribute lookup order of each class is a fixed function
    `Mro : ClassId → List ClassId` (self first, then ancestors), standing for
    Python's `cls.__mro__`;
  * `RegState` gives, per class, the `__declared_dataclasses__` entry of the
    class's *own* dict: `none` when absent, `some r` when a set is attached
    directly to that class;
  * `dataclasses._process_class` is the external Synthesizer: a parameter of
    the model.  Its general form may replace the class object and adjust
    attribute state (as slots synthesis does); the in-place form `liftSynth`
    returns a class and leaves registries alone.  Failure is an `Except`
    error, mirroring a raised exception: state already mutated stays mutated.
-/

namespace DataclassPatch

/-- Identity token of a class object (`id(cls)`); distinct live classes have
distinct tokens, and we identify a class with its token. -/
abbrev ClassId := Nat

/-- Per-class own-dict content of the `__declared_dataclasses__` attribute:
`none` when the class's own dict lacks the attribute, `some r` when the set
`r` is attached directly to the class. -/
abbrev RegState := ClassId → Option (Finset ClassId)

/-- Attribute lookup order of each class (Python MRO), the class itself
first, then its ancestors. -/
abbrev Mro := ClassId → List ClassId

/-- Pointwise update of the registry state at one class. -/
def updateReg (s : RegState) (c : ClassId) (v : Option (Finset ClassId)) :
    RegState :=
  fun x => if x = c then v else s x

/-- The class providing `__declared_dataclasses__` under attribute lookup:
the first class in the lookup order whose own dict carries the attribute.
`getattr(cls, _DECLARED_DATA_CLASSES, d)` returns the set of
`findProvider s (m cls)` when that is `some`, and `d` otherwise. -/
def findProvider (s : RegState) : List ClassId → Option ClassId
  | [] => none
  | c :: rest => if (s c).isSome then some c else findProvider s rest

/-- The keyword options accepted by the patched `dataclass` entry point
(source lines 48-50).  `uhash` embeds the source parameter spelled
unsafe_hash (the first word is reserved in Lean). -/
structure DataclassOpts where
  init : Bool
  repr : Bool
  eq : Bool
  order : Bool
  uhash : Bool
  frozen : Bool
  match_args : Bool
  kw_only : Bool
  slots : Bool
  weakref_slot : Bool
  deriving DecidableEq, Repr

/-- The argument bundle `wrap` actually hands to `dataclasses._process_class`
(source lines 75-76): nine of the ten options. -/
structure ForwardedArgs where
  init : Bool
  repr : Bool
  eq : Bool
  order : Bool
  uhash : Bool
  frozen : Bool
  match_args : Bool
  kw_only : Bool
  slots : Bool
  deriving DecidableEq, Repr

/-- Exactly the positional argument list of the `_process_class` call on
source lines 75-76; note `weakref_slot` does not appear there. -/
def forwardedToSynth (O : DataclassOpts) : ForwardedArgs :=
  ⟨O.init, O.repr, O.eq, O.order, O.uhash, O.frozen, O.match_args,
    O.kw_only, O.slots⟩

/-- Exceptions the external Synthesizer may raise (spec section 7). -/
inductive SynthException where
  | invalidOptionCombination
  | synthesisError
  deriving DecidableEq, Repr

/-- In-place Synthesizer behavior: from the class and the forwarded
arguments, either the augmented class object or a raised exception. -/
def Synth := ClassId → ForwardedArgs → Except SynthException ClassId

/-- General Synthesizer behavior: may also replace the class object and carry
class attributes (hence registry state) over to the replacement, as the
compact-storage (slots) synthesis path does. -/
def SynthM :=
  RegState → ClassId → ForwardedArgs → Except SynthException (ClassId × RegState)

/-- An in-place Synthesizer, lifted: it never touches registry state. -/
def liftSynth (f : Synth) : SynthM :=
  fun s c a => (f c a).map (fun d => (d, s))

/-- Shallow embedding of the `wrap` closure (source lines 66-76), over the
nine forwarded arguments.  Branches in source order:
`getattr` finds no registry → attach a fresh set to the class and record the
identity in it; a registry is found and already holds `id(cls)` → return the
class, untouched state; otherwise → add `id(cls)` to the *found* set (which
lives on the provider class) and invoke the Synthesizer.  A Synthesizer
exception propagates with the recorded state kept (no rollback). -/
def wrapCore (g : SynthM) (m : Mro) (s : RegState) (cls : ClassId)
    (a : ForwardedArgs) : Except SynthException ClassId × RegState :=
  match findProvider s (m cls) with
  | none =>
      let s1 := updateReg s cls (some {cls})
      match g s1 cls a with
      | .ok (d, s2) => (.ok d, s2)
      | .error e => (.error e, s1)
  | some p =>
      let seen := (s p).getD ∅
      if cls ∈ seen then
        (.ok cls, s)
      else
        let s1 := updateReg s p (some (insert cls seen))
        match g s1 cls a with
        | .ok (d, s2) => (.ok d, s2)
        | .error e => (.error e, s1)

/-- The patched `dataclass` entry point applied to a class (`wrap(cls)` with
the ten keyword options in scope): it forwards all options but
`weakref_slot` to the Synthesizer. -/
def wrap (g : SynthM) (m : Mro) (s : RegState) (cls : ClassId)
    (O : DataclassOpts) : Except SynthException ClassId × RegState :=
  wrapCore g m s cls (forwardedToSynth O)

/-- Shallow embedding of `is_direct_dataclass` (source lines 87-89):
`id(cls) in getattr(cls, _DECLARED_DATA_CLASSES, set())`.  The `none` branch
mirrors the fresh empty `set()` default. -/
def is_direct_dataclass (s : RegState) (m : Mro) (cls : ClassId) : Bool :=
  match findProvider s (m cls) with
  | none => decide (cls ∈ (∅ : Finset ClassId))
  | some p => decide (cls ∈ (s p).getD ∅)

/-- `is_direct_dataclass` as a state transformer: its body is a single
mutation-free expression, so the state it leaves is the state it received. -/
def is_direct_run (s : RegState) (m : Mro) (cls : ClassId) :
    Bool × RegState :=
  (is_direct_dataclass s m cls, s)

/-- Events of a client session: submitting a class to the patched decorator,
or querying the direct-declaration oracle. -/
inductive Evt where
  | applyE (cls : ClassId) (O : DataclassOpts)
  | queryE (cls : ClassId)

/-- State effect of one event (in-place Synthesizer `f`). -/
def stepEvt (f : Synth) (m : Mro) (s : RegState) : Evt → RegState
  | .applyE c O => (wrap (liftSynth f) m s c O).2
  | .queryE c => (is_direct_run s m c).2

/-- Registry state after a sequence of events. -/
def runEvts (f : Synth) (m : Mro) : RegState → List Evt → RegState
  | s, [] => s
  | s, e :: es => runEvts f m (stepEvt f m s e) es

/-- A Synthesizer that augments every class in place and never fails. -/
def okSynth : Synth := fun c _ => .ok c

/-- Modelled from the spec: the Augmentor's failure semantics (section 7)
name an `InvalidOptionCombination` error for options requesting hashing with
equality disabled; in the code this check lives in the external Synthesizer
(`dataclasses._process_class`), so it is modelled here as a Synthesizer that
rejects that combination and augments in place otherwise. -/
def validatingSynth : Synth :=
  fun c a =>
    if a.uhash && !a.eq then .error .invalidOptionCombination else .ok c

/-- Modelled from the spec: a Synthesizer taking the replacement-object path
of spec section 4.2 step 6 (as compact-storage slots synthesis does): it
returns a fresh class object whose identity token is `c + 100` and copies the
original class's own attributes, the registry attribute included, onto the
replacement. -/
def replacementSynth : SynthM :=
  fun s c _ => .ok (c + 100, updateReg s (c + 100) (s c))

/-- A one-class-deep hierarchy: every class is its own whole lookup order. -/
def flatMro : Mro := fun c => [c]

/-- The empty registry state: no class carries the attribute yet. -/
def emptyState : RegState := fun _ => none

/-- The Python defaults of the patched signature (source lines 48-50). -/
def defaultOpts : DataclassOpts :=
  ⟨true, true, true, false, false, false, true, false, false, false⟩

/-- Options requesting hashing while equality is disabled. -/
def hashNoEqOpts : DataclassOpts :=
  ⟨true, true, false, false, true, false, true, false, false, false⟩

/-- Options requesting compact storage (slots). -/
def slotsOpts : DataclassOpts :=
  ⟨true, true, true, false, false, false, true, false, true, false⟩

/-- A class identity that sits in no registry of the state at all. -/
def Unrecorded (s : RegState) (c : ClassId) : Prop :=
  ∀ p r, s p = some r → c ∉ r

@[simp] theorem updateReg_self (s : RegState) (c : ClassId)
    (v : Option (Finset ClassId)) : updateReg s c v c = v := by
  simp [updateReg]

theorem updateReg_other (s : RegState) {x c : ClassId}
    (v : Option (Finset ClassId)) (h : x ≠ c) : updateReg s c v x = s x := by
  simp [updateReg, h]

theorem findProvider_none {s : RegState} {l : List ClassId}
    (h : findProvider s l = none) : ∀ x ∈ l, s x = none := by
  induction l with
  | nil => intro x hx; cases hx
  | cons a t ih =>
      intro x hx
      by_cases ha : (s a).isSome
      · simp [findProvider, ha] at h
      · simp only [findProvider, ha, if_false] at h
        rcases List.mem_cons.mp hx with rfl | hxt
        · exact Option.not_isSome_iff_eq_none.mp ha
        · exact ih h x hxt

theorem findProvider_mem {s : RegState} {l : List ClassId} {p : ClassId}
    (h : findProvider s l = some p) : p ∈ l := by
  induction l with
  | nil => cases h
  | cons a t ih =>
      by_cases ha : (s a).isSome
      · simp only [findProvider, ha, if_true, Option.some.injEq] at h
        exact h ▸ List.mem_cons_self a t
      · simp only [findProvider, ha, if_false] at h
        exact List.mem_cons_of_mem a (ih h)

theorem findProvider_isSome {s : RegState} {l : List ClassId} {p : ClassId}
    (h : findProvider s l = some p) : (s p).isSome := by
  induction l with
  | nil => cases h
  | cons a t ih =>
      by_cases ha : (s a).isSome
      · simp only [findProvider, ha, if_true, Option.some.injEq] at h
        exact h ▸ ha
      · simp only [findProvider, ha, if_false] at h
        exact ih h

theorem findProvider_congr {s s' : RegState} {l : List ClassId}
    (h : ∀ x ∈ l, (s' x).isSome = (s x).isSome) :
    findProvider s' l = findProvider s l := by
  induction l with
  | nil => rfl
  | cons a t ih =>
      have ha := h a (List.mem_cons_self a t)
      simp only [findProvider, ha]
      by_cases hs : (s a).isSome
      · simp [hs]
      · simp only [hs, if_false]
        exact ih (fun x hx => h x (List.mem_cons_of_mem a hx))

theorem findProvider_update_some {s : RegState} {l : List ClassId}
    {p : ClassId} (hp : (s p).isSome) (r' : Finset ClassId) :
    findProvider (updateReg s p (some r')) l = findProvider s l := by
  refine findProvider_congr (fun x _ => ?_)
  by_cases hx : x = p
  · subst hx; simp [updateReg, hp]
  · rw [updateReg_other s _ hx]

theorem findProvider_update_notmem {s : RegState} {l : List ClassId}
    {c : ClassId} (hc : c ∉ l) (v : Option (Finset ClassId)) :
    findProvider (updateReg s c v) l = findProvider s l := by
  refine findProvider_congr (fun x hx => ?_)
  have hxc : x ≠ c := fun he => hc (he ▸ hx)
  rw [updateReg_other s v hxc]

/-- Branch shape: no registry reachable.  The class gets its own fresh set
holding only its identity, and the Synthesizer's verdict is the result. -/
theorem wrap_absent {f : Synth} {m : Mro} {s : RegState} {c : ClassId}
    (O : DataclassOpts) (h : findProvider s (m c) = none) :
    wrap (liftSynth f) m s c O
      = (f c (forwardedToSynth O), updateReg s c (some {c})) := by
  unfold wrap wrapCore
  rw [h]
  cases hf : f c (forwardedToSynth O) <;> simp [liftSynth, hf, Except.map]

/-- Branch shape: the reachable registry already holds the identity.  The
class comes back untouched and no state changes (any Synthesizer). -/
theorem wrap_recorded {g : SynthM} {m : Mro} {s : RegState} {c : ClassId}
    (O : DataclassOpts) {p : ClassId} (hp : findProvider s (m c) = some p)
    (hc : c ∈ (s p).getD ∅) :
    wrap g m s c O = (.ok c, s) := by
  unfold wrap wrapCore
  rw [hp]
  simp [hc]

/-- Branch shape: a registry is reachable but lacks the identity.  The
identity is added to the provider's set and the Synthesizer's verdict is the
result. -/
theorem wrap_inherited {f : Synth} {m : Mro} {s : RegState} {c : ClassId}
    (O : DataclassOpts) {p : ClassId} (hp : findProvider s (m c) = some p)
    (hc : c ∉ (s p).getD ∅) :
    wrap (liftSynth f) m s c O
      = (f c (forwardedToSynth O),
          updateReg s p (some (insert c ((s p).getD ∅)))) := by
  unfold wrap wrapCore
  rw [hp]
  simp only [hc, if_false]
  cases hf : f c (forwardedToSynth O) <;> simp [liftSynth, hf, Except.map]

theorem unrecorded_not_direct {s : RegState} {m : Mro} {c : ClassId}
    (h : Unrecorded s c) : is_direct_dataclass s m c = false := by
  unfold is_direct_dataclass
  cases hp : findProvider s (m c) with
  | none => simp
  | some p =>
      have hs := findProvider_isSome hp
      rcases Option.isSome_iff_exists.mp hs with ⟨r, hr⟩
      simp [hr, h p r hr]

theorem direct_of_recorded {s : RegState} {m : Mro} {c : ClassId}
    (h : ∃ q, findProvider s (m c) = some q ∧ c ∈ (s q).getD ∅) :
    is_direct_dataclass s m c = true := by
  rcases h with ⟨q, hq, hc⟩
  unfold is_direct_dataclass
  rw [hq]
  exact decide_eq_true hc

/-- Whatever branch `wrap` takes, afterwards the submitted identity is in the
registry its class reaches. -/
theorem recorded_after_wrap (f : Synth) (m : Mro) (s : RegState)
    (c : ClassId) (O : DataclassOpts) (tc : List ClassId)
    (hmc : m c = c :: tc) :
    ∃ q, findProvider (wrap (liftSynth f) m s c O).2 (m c) = some q
      ∧ c ∈ ((wrap (liftSynth f) m s c O).2 q).getD ∅ := by
  cases hp : findProvider s (m c) with
  | none =>
      rw [wrap_absent O hp]
      refine ⟨c, ?_, ?_⟩
      · rw [hmc]
        simp [findProvider, updateReg]
      · simp [updateReg]
  | some p =>
      by_cases hc : c ∈ (s p).getD ∅
      · rw [wrap_recorded O hp hc]
        exact ⟨p, hp, hc⟩
      · rw [wrap_inherited O hp hc]
        have hps : (s p).isSome := findProvider_isSome hp
        refine ⟨p, ?_, ?_⟩
        · rw [findProvider_update_some hps, hp]
        · simp [updateReg]

/-- Applying the decorator to `c` can record only `c` itself: any other
identity absent from every registry stays absent from every registry. -/
theorem unrecorded_preserved {f : Synth} {m : Mro} {s : RegState}
    {c D : ClassId} (O : DataclassOpts) (hD : Unrecorded s D) (hDc : D ≠ c) :
    Unrecorded (wrap (liftSynth f) m s c O).2 D := by
  cases hp : findProvider s (m c) with
  | none =>
      rw [wrap_absent O hp]
      dsimp only
      intro p r hr
      by_cases hpc : p = c
      · subst hpc
        rw [updateReg_self] at hr
        cases hr
        simpa using hDc
      · rw [updateReg_other s _ hpc] at hr
        exact hD p r hr
  | some q =>
      by_cases hc : c ∈ (s q).getD ∅
      · rw [wrap_recorded O hp hc]
        exact hD
      · rw [wrap_inherited O hp hc]
        dsimp only
        intro p r hr
        by_cases hpq : p = q
        · subst hpq
          rw [updateReg_self] at hr
          cases hr
          have hs := findProvider_isSome hp
          rcases Option.isSome_iff_exists.mp hs with ⟨r0, hr0⟩
          rw [Finset.mem_insert]
          rintro (h1 | h2)
          · exact hDc h1
          · rw [hr0] at h2
            simp only [Option.getD_some] at h2
            exact hD p r0 hr0 h2
        · rw [updateReg_other s _ hpq] at hr
          exact hD p r hr

/-- A synthesizer that augments nothing and raises `SynthesisError`. -/
def failSynth : Synth := fun _ _ => .error .synthesisError

/-- Lookup orders of worked examples: identity 0 is a subclass of identity 1
(everything else is a root class). -/
def mroSub : Mro := fun c => if c = 0 then [0, 1] else [c]

/-- Lookup orders of worked examples: identity 0 subclasses 1 and 2, in that
order (multiple inheritance); 1 and 2 are unrelated root classes. -/
def mroMi : Mro := fun c => if c = 0 then [0, 1, 2] else [c]

/-- State in which class 1 was already directly declared (its own registry
holds its identity) and no other class carries the attribute. -/
def baseState : RegState := fun c => if c = 1 then some {1} else none

/-- Default options except that the weak-reference slot is requested. -/
def weakrefOpts : DataclassOpts :=
  ⟨true, true, true, false, false, false, true, false, false, true⟩

/-- C4.  Direct-vs-inherited distinction: `is_direct_dataclass` answers true
exactly when the class's identity is in the registry reached by attribute
lookup; after submitting `B`, `is_direct_dataclass` answers true for `B` and
false for a subclass `D` that was never itself submitted (here: any class
whose identity sits in no registry and that is distinct from `B`). -/
theorem is_direct_membership_base_subclass (f : Synth) (m : Mro)
    (s : RegState) (B D : ClassId) (O : DataclassOpts) (tB : List ClassId)
    (hmB : m B = B :: tB) (hDB : D ≠ B) (hD : Unrecorded s D) :
    (∀ (s' : RegState) (C : ClassId),
        is_direct_dataclass s' m C = true ↔
          ∃ p, findProvider s' (m C) = some p ∧ C ∈ (s' p).getD ∅)
    ∧ is_direct_dataclass (wrap (liftSynth f) m s B O).2 m B = true
    ∧ is_direct_dataclass (wrap (liftSynth f) m s B O).2 m D = false := by
  refine ⟨?_, ?_, ?_⟩
  · intro s' C
    constructor
    · intro h
      unfold is_direct_dataclass at h
      cases hp : findProvider s' (m C) with
      | none => rw [hp] at h; simp at h
      | some p =>
          rw [hp] at h
          exact ⟨p, rfl, of_decide_eq_true h⟩
    · exact direct_of_recorded
  · exact direct_of_recorded (recorded_after_wrap f m s B O tB hmB)
  · exact unrecorded_not_direct (unrecorded_preserved O hD hDB)

/-- C4 witness: a concrete base class 3 and a concrete never-submitted
class 4 over the flat hierarchy and empty starting state. -/
theorem is_direct_membership_base_subclass_witness :
    (flatMro 3 = 3 :: [] ∧ (4 : ClassId) ≠ 3 ∧ Unrecorded emptyState 4)
    ∧ ((∀ (s' : RegState) (C : ClassId),
          is_direct_dataclass s' flatMro C = true ↔
            ∃ p, findProvider s' (flatMro C) = some p ∧ C ∈ (s' p).getD ∅)
       ∧ is_direct_dataclass
            (wrap (liftSynth okSynth) flatMro emptyState 3 defaultOpts).2
            flatMro 3 = true
       ∧ is_direct_dataclass
            (wrap (liftSynth okSynth) flatMro emptyState 3 defaultOpts).2
            flatMro 4 = false) := by
  have hU : Unrecorded emptyState 4 := by
    intro p r h
    simp [emptyState] at h
  exact ⟨⟨rfl, by decide, hU⟩,
    is_direct_membership_base_subclass okSynth flatMro emptyState 3 4
      defaultOpts [] rfl (by decide) hU⟩

/-- C9.  Frame property: submitting class `X` never changes the
direct-declaration answer for a class `Y` that neither inherits from `X` nor
is inherited by it. -/
theorem apply_frame_unrelated (f : Synth) (m : Mro) (s : RegState)
    (X Y : ClassId) (O : DataclassOpts) (tY : List ClassId)
    (hmY : m Y = Y :: tY) (hXY : X ∉ m Y) (_hYX : Y ∉ m X) :
    is_direct_dataclass (wrap (liftSynth f) m s X O).2 m Y
      = is_direct_dataclass s m Y := by
  have hYne : Y ≠ X := by
    intro he
    exact hXY (he ▸ (hmY ▸ List.mem_cons_self Y tY))
  cases hp : findProvider s (m X) with
  | none =>
      rw [wrap_absent O hp]
      dsimp only
      unfold is_direct_dataclass
      rw [findProvider_update_notmem hXY]
      cases hq : findProvider s (m Y) with
      | none => rfl
      | some q =>
          have hqY : q ∈ m Y := findProvider_mem hq
          have hqX : q ≠ X := fun he => hXY (he ▸ hqY)
          dsimp only
          rw [updateReg_other s _ hqX]
  | some p =>
      by_cases hc : X ∈ (s p).getD ∅
      · rw [wrap_recorded O hp hc]
      · rw [wrap_inherited O hp hc]
        dsimp only
        have hps : (s p).isSome := findProvider_isSome hp
        unfold is_direct_dataclass
        rw [findProvider_update_some hps]
        cases hq : findProvider s (m Y) with
        | none => rfl
        | some q =>
            dsimp only
            by_cases hqp : q = p
            · subst hqp
              rw [updateReg_self]
              have hs := Option.isSome_iff_exists.mp hps
              rcases hs with ⟨r, hr⟩
              rw [hr]
              simp [Finset.mem_insert, hYne]
            · rw [updateReg_other s _ hqp]

/-- C9 witness: submitting class 5 leaves the answer for the unrelated
class 9 untouched, over the flat hierarchy. -/
theorem apply_frame_unrelated_witness :
    (flatMro 9 = 9 :: [] ∧ (5 : ClassId) ∉ flatMro 9 ∧ (9 : ClassId) ∉ flatMro 5)
    ∧ is_direct_dataclass
        (wrap (liftSynth okSynth) flatMro emptyState 5 defaultOpts).2
        flatMro 9
      = is_direct_dataclass emptyState flatMro 9 :=
  ⟨⟨rfl, by decide, by decide⟩,
    apply_frame_unrelated okSynth flatMro emptyState 5 9 defaultOpts [] rfl
      (by decide) (by decide)⟩

/-- C10.  The direct-declaration oracle is observer-only: it hands back the
state it was given, a query inserted anywhere in an event sequence leaves the
final registry state as without it, and with no reachable registry it
answers false against the empty-set default rather than attaching one. -/
theorem query_observer_only (f : Synth) (m : Mro) (c : ClassId) :
    (∀ s : RegState, (is_direct_run s m c).2 = s)
    ∧ (∀ (s : RegState) (es1 es2 : List Evt),
        runEvts f m s (es1 ++ Evt.queryE c :: es2)
          = runEvts f m s (es1 ++ es2))
    ∧ (∀ s : RegState, findProvider s (m c) = none →
        is_direct_dataclass s m c = false) := by
  refine ⟨fun s => rfl, ?_, ?_⟩
  · intro s es1 es2
    induction es1 generalizing s with
    | nil => rfl
    | cons e t ih => exact ih (stepEvt f m s e)
  · intro s h
    unfold is_direct_dataclass
    rw [h]
    rfl

/-- C10 witness: a concrete query on class 7 in the empty state, also
inserted in the middle of a concrete event sequence. -/
theorem query_observer_only_witness :
    (is_direct_run emptyState flatMro 7).2 = emptyState
    ∧ runEvts okSynth flatMro emptyState
        ([Evt.applyE 3 defaultOpts] ++ Evt.queryE 7 :: [Evt.applyE 5 defaultOpts])
        = runEvts okSynth flatMro emptyState
            ([Evt.applyE 3 defaultOpts] ++ [Evt.applyE 5 defaultOpts])
    ∧ (findProvider emptyState (flatMro 7) = none
        ∧ is_direct_dataclass emptyState flatMro 7 = false) :=
  ⟨(query_observer_only okSynth flatMro 7).1 emptyState,
    (query_observer_only okSynth flatMro 7).2.1 emptyState
      [Evt.applyE 3 defaultOpts] [Evt.applyE 5 defaultOpts],
    rfl,
    (query_observer_only okSynth flatMro 7).2.2 emptyState rfl⟩

/-- C6.  No rollback on synthesis failure: when the Synthesizer raises, the
exception propagates unchanged from `wrap`, the identity recorded just
before stays in the registry (the oracle answers true), and any retry — with
any Synthesizer and any options — takes the already-recorded branch,
returning the class with no state change and no re-synthesis. -/
theorem synthesis_failure_no_rollback (f : Synth) (m : Mro) (s : RegState)
    (C : ClassId) (O : DataclassOpts) (e : SynthException)
    (tC : List ClassId) (hmC : m C = C :: tC)
    (hf : f C (forwardedToSynth O) = .error e)
    (hnr : ∀ p, findProvider s (m C) = some p → C ∉ (s p).getD ∅) :
    (wrap (liftSynth f) m s C O).1 = .error e
    ∧ is_direct_dataclass (wrap (liftSynth f) m s C O).2 m C = true
    ∧ ∀ (g : SynthM) (O' : DataclassOpts),
        wrap g m (wrap (liftSynth f) m s C O).2 C O'
          = (.ok C, (wrap (liftSynth f) m s C O).2) := by
  have hrec := recorded_after_wrap f m s C O tC hmC
  refine ⟨?_, direct_of_recorded hrec, ?_⟩
  · cases hp : findProvider s (m C) with
    | none => rw [wrap_absent O hp, hf]
    | some p =>
        have hc : C ∉ (s p).getD ∅ := hnr p hp
        rw [wrap_inherited O hp hc, hf]
  · rcases hrec with ⟨q, hq, hcq⟩
    intro g O'
    exact wrap_recorded O' hq hcq

/-- C6 witness: a Synthesizer that always raises `SynthesisError`, applied to
class 0 in the empty state; the retry with the in-place Synthesizer
short-circuits. -/
theorem synthesis_failure_no_rollback_witness :
    (flatMro 0 = 0 :: []
      ∧ failSynth 0 (forwardedToSynth defaultOpts)
          = .error SynthException.synthesisError
      ∧ ∀ p, findProvider emptyState (flatMro 0) = some p →
          (0 : ClassId) ∉ (emptyState p).getD ∅)
    ∧ ((wrap (liftSynth failSynth) flatMro emptyState 0 defaultOpts).1
          = .error SynthException.synthesisError
       ∧ is_direct_dataclass
            (wrap (liftSynth failSynth) flatMro emptyState 0 defaultOpts).2
            flatMro 0 = true
       ∧ ∀ (g : SynthM) (O' : DataclassOpts),
            wrap g flatMro
              (wrap (liftSynth failSynth) flatMro emptyState 0 defaultOpts).2
              0 O'
            = (.ok 0,
                (wrap (liftSynth failSynth) flatMro emptyState 0
                  defaultOpts).2)) := by
  have hnr : ∀ p, findProvider emptyState (flatMro 0) = some p →
      (0 : ClassId) ∉ (emptyState p).getD ∅ := by
    intro p h
    simp [flatMro, emptyState, findProvider] at h
  exact ⟨⟨rfl, rfl, hnr⟩,
    synthesis_failure_no_rollback failSynth flatMro emptyState 0 defaultOpts
      SynthException.synthesisError [] rfl rfl hnr⟩

/-- C1 at its failing input: with the Synthesizer on the replacement-object
path (compact storage), the first apply of class 0 returns the replacement
class 100; applying again to that very result does not take the
already-recorded branch — the Synthesizer runs a second time and yet another
class, 200, comes back, so the composite is not a no-op. -/
theorem double_apply_resynthesizes_replacement :
    (wrap replacementSynth flatMro emptyState 0 slotsOpts).1 = .ok 100
    ∧ (wrap replacementSynth flatMro
        (wrap replacementSynth flatMro emptyState 0 slotsOpts).2 100
        slotsOpts).1 = .ok 200
    ∧ (200 : ClassId) ≠ 100 :=
  ⟨rfl, rfl, by decide⟩

/-- C5 at its failing input: `Alias` is the very object (identity 100) the
first apply returned for class 0; the oracle answers false for it, and
re-applying runs the Synthesizer again and returns a different object
instead of `Alias` unchanged. -/
theorem realias_of_replacement_not_noop :
    is_direct_dataclass
      (wrap replacementSynth flatMro emptyState 0 slotsOpts).2 flatMro 100
      = false
    ∧ (wrap replacementSynth flatMro
        (wrap replacementSynth flatMro emptyState 0 slotsOpts).2 100
        slotsOpts).1 = .ok 200
    ∧ (200 : ClassId) ≠ 100 :=
  ⟨by decide, rfl, by decide⟩

/-- C2 counterexample: options requesting hashing with equality disabled are
rejected by the synthesis step, but only after the identity has been
recorded — afterwards the oracle answers true, not false as claimed. -/
theorem invalid_options_leave_identity_recorded_cx :
    (wrap (liftSynth validatingSynth) flatMro emptyState 0 hashNoEqOpts).1
      = .error SynthException.invalidOptionCombination
    ∧ is_direct_dataclass
        (wrap (liftSynth validatingSynth) flatMro emptyState 0
          hashNoEqOpts).2 flatMro 0 = true :=
  ⟨rfl, by decide⟩

/-- C2 amended: when the Synthesizer rejects the options of a
not-yet-recorded class with `InvalidOptionCombination`, `wrap` propagates
that error, but the registry mutation of the record step has already
happened, so afterwards the oracle answers true (no atomicity). -/
theorem invalid_options_error_after_record (f : Synth) (m : Mro)
    (s : RegState) (C : ClassId) (O : DataclassOpts) (tC : List ClassId)
    (hmC : m C = C :: tC)
    (hf : f C (forwardedToSynth O)
      = .error SynthException.invalidOptionCombination)
    (hnr : ∀ p, findProvider s (m C) = some p → C ∉ (s p).getD ∅) :
    (wrap (liftSynth f) m s C O).1
      = .error SynthException.invalidOptionCombination
    ∧ is_direct_dataclass (wrap (liftSynth f) m s C O).2 m C = true := by
  refine ⟨?_, direct_of_recorded (recorded_after_wrap f m s C O tC hmC)⟩
  cases hp : findProvider s (m C) with
  | none =>
      rw [wrap_absent O hp]
      exact hf
  | some p =>
      have hc := hnr p hp
      rw [wrap_inherited O hp hc]
      exact hf

/-- C2 witness: the rejecting Synthesizer applied to class 0 in the empty
state with hashing requested and equality disabled. -/
theorem invalid_options_error_after_record_witness :
    (flatMro 0 = 0 :: []
      ∧ validatingSynth 0 (forwardedToSynth hashNoEqOpts)
          = .error SynthException.invalidOptionCombination
      ∧ ∀ p, findProvider emptyState (flatMro 0) = some p →
          (0 : ClassId) ∉ (emptyState p).getD ∅)
    ∧ ((wrap (liftSynth validatingSynth) flatMro emptyState 0
          hashNoEqOpts).1 = .error SynthException.invalidOptionCombination
       ∧ is_direct_dataclass
            (wrap (liftSynth validatingSynth) flatMro emptyState 0
              hashNoEqOpts).2 flatMro 0 = true) := by
  have hnr : ∀ p, findProvider emptyState (flatMro 0) = some p →
      (0 : ClassId) ∉ (emptyState p).getD ∅ := by
    intro p h
    simp [flatMro, emptyState, findProvider] at h
  exact ⟨⟨rfl, rfl, hnr⟩,
    invalid_options_error_after_record validatingSynth flatMro emptyState 0
      hashNoEqOpts [] rfl rfl hnr⟩

/-- C3 counterexample: class 0 inherits class 1's registry; applying the
decorator to 0 attaches nothing to 0 (its own entry stays absent) and writes
identity 0 into the ancestor's registry, which the claim says must stay
unchanged. -/
theorem inherited_registry_shadowing_cx :
    (wrap (liftSynth okSynth) mroSub baseState 0 defaultOpts).2 0 = none
    ∧ (wrap (liftSynth okSynth) mroSub baseState 0 defaultOpts).2 1
        = some ({0, 1} : Finset ClassId) :=
  ⟨by decide, by decide⟩

/-- C3 amended: when the reachable registry is inherited (the class's own
entry is absent), `wrap` attaches no new registry to the class — it records
the identity directly in the inherited ancestor registry, mutating it, and
touches no other class's entry; a fresh registry is attached only when no
registry is reachable at all. -/
theorem inherited_registry_records_in_ancestor (f : Synth) (m : Mro)
    (s : RegState) (C p : ClassId) (O : DataclassOpts)
    (hp : findProvider s (m C) = some p) (hown : s C = none)
    (hc : C ∉ (s p).getD ∅) :
    (wrap (liftSynth f) m s C O).2 C = none
    ∧ (wrap (liftSynth f) m s C O).2 p = some (insert C ((s p).getD ∅))
    ∧ ∀ q, q ≠ p → (wrap (liftSynth f) m s C O).2 q = s q := by
  have hpC : C ≠ p := by
    intro he
    have hps := findProvider_isSome hp
    rw [← he, hown] at hps
    cases hps
  rw [wrap_inherited O hp hc]
  dsimp only
  refine ⟨?_, by rw [updateReg_self], ?_⟩
  · rw [updateReg_other s _ hpC]
    exact hown
  · intro q hq
    rw [updateReg_other s _ hq]

/-- C3 witness: the concrete subclass 0 of the already-declared class 1. -/
theorem inherited_registry_records_in_ancestor_witness :
    (findProvider baseState (mroSub 0) = some 1
      ∧ baseState 0 = none
      ∧ (0 : ClassId) ∉ (baseState 1).getD ∅)
    ∧ ((wrap (liftSynth okSynth) mroSub baseState 0 defaultOpts).2 0 = none
       ∧ (wrap (liftSynth okSynth) mroSub baseState 0 defaultOpts).2 1
           = some (insert 0 ((baseState 1).getD ∅))
       ∧ ∀ q, q ≠ 1 →
           (wrap (liftSynth okSynth) mroSub baseState 0 defaultOpts).2 q
             = baseState q) :=
  ⟨⟨by decide, rfl, by decide⟩,
    inherited_registry_records_in_ancestor okSynth mroSub baseState 0 1
      defaultOpts (by decide) rfl (by decide)⟩

/-- C7 counterexample: two option values differing exactly in the
weak-reference-slot flag yield the identical argument bundle for the
Synthesizer and the identical apply outcome, so the complete options value
the caller passed is not forwarded. -/
theorem weakref_slot_not_forwarded_cx :
    weakrefOpts ≠ defaultOpts
    ∧ weakrefOpts.weakref_slot ≠ defaultOpts.weakref_slot
    ∧ forwardedToSynth weakrefOpts = forwardedToSynth defaultOpts
    ∧ wrap (liftSynth okSynth) flatMro emptyState 0 weakrefOpts
        = wrap (liftSynth okSynth) flatMro emptyState 0 defaultOpts :=
  ⟨by decide, by decide, rfl, rfl⟩

/-- C7 amended: the synthesis step receives exactly the forwarded bundle
`forwardedToSynth O` — the nine options other than `weakref_slot`, each
unchanged; `weakref_slot` is accepted by the entry point but dropped. -/
theorem forwarding_drops_only_weakref_slot (g : SynthM) (m : Mro)
    (s : RegState) (c : ClassId) (O : DataclassOpts) :
    wrap g m s c O = wrapCore g m s c (forwardedToSynth O)
    ∧ (forwardedToSynth O).init = O.init
    ∧ (forwardedToSynth O).repr = O.repr
    ∧ (forwardedToSynth O).eq = O.eq
    ∧ (forwardedToSynth O).order = O.order
    ∧ (forwardedToSynth O).uhash = O.uhash
    ∧ (forwardedToSynth O).frozen = O.frozen
    ∧ (forwardedToSynth O).match_args = O.match_args
    ∧ (forwardedToSynth O).kw_only = O.kw_only
    ∧ (forwardedToSynth O).slots = O.slots :=
  ⟨rfl, rfl, rfl, rfl, rfl, rfl, rfl, rfl, rfl, rfl⟩

/-- C8 counterexample: class 0 inherits from 1 then 2; after submitting 2
and then 0, identity 0 lives in class 2's registry and the oracle answers
true for 0 — but then submitting the other ancestor 1 attaches a fresh
registry to 1, which shadows 2's registry in 0's lookup order, and the
oracle's answer for 0 flips back to false. -/
theorem is_direct_flips_under_mi_cx :
    is_direct_dataclass
      (wrap (liftSynth okSynth) mroMi
        (wrap (liftSynth okSynth) mroMi emptyState 2 defaultOpts).2
        0 defaultOpts).2
      mroMi 0 = true
    ∧ is_direct_dataclass
        (wrap (liftSynth okSynth) mroMi
          (wrap (liftSynth okSynth) mroMi
            (wrap (liftSynth okSynth) mroMi emptyState 2 defaultOpts).2
            0 defaultOpts).2
          1 defaultOpts).2
        mroMi 0 = false :=
  ⟨by decide, by decide⟩

/-- C8 amended: registry membership only grows — every set attached to any
class before an apply survives as a superset afterwards (identities are
never removed); the oracle's answer, however, is not monotone, since a later
apply can attach a registry that shadows the one holding an identity. -/
theorem registry_growth (f : Synth) (m : Mro) (s : RegState) (c : ClassId)
    (O : DataclassOpts) (tc : List ClassId) (hmc : m c = c :: tc)
    (p : ClassId) (r : Finset ClassId) (h : s p = some r) :
    ∃ r', (wrap (liftSynth f) m s c O).2 p = some r' ∧ r ⊆ r' := by
  cases hp : findProvider s (m c) with
  | none =>
      have hcn : s c = none := by
        refine findProvider_none hp c ?_
        rw [hmc]
        exact List.mem_cons_self c tc
      have hpc : p ≠ c := by
        intro he
        rw [he, hcn] at h
        cases h
      rw [wrap_absent O hp]
      dsimp only
      rw [updateReg_other s _ hpc]
      exact ⟨r, h, Finset.Subset.refl r⟩
  | some q =>
      by_cases hc : c ∈ (s q).getD ∅
      · rw [wrap_recorded O hp hc]
        exact ⟨r, h, Finset.Subset.refl r⟩
      · rw [wrap_inherited O hp hc]
        dsimp only
        by_cases hpq : p = q
        · subst hpq
          rw [updateReg_self]
          refine ⟨insert c ((s p).getD ∅), rfl, ?_⟩
          rw [h]
          simp only [Option.getD_some]
          exact Finset.subset_insert c r
        · rw [updateReg_other s _ hpq]
          exact ⟨r, h, Finset.Subset.refl r⟩

/-- C8 witness: growth of class 1's registry when its subclass 0 is
submitted. -/
theorem registry_growth_witness :
    (mroSub 0 = 0 :: [1] ∧ baseState 1 = some {1})
    ∧ ∃ r',
        (wrap (liftSynth okSynth) mroSub baseState 0 defaultOpts).2 1
          = some r'
        ∧ ({1} : Finset ClassId) ⊆ r' :=
  ⟨⟨by decide, rfl⟩,
    registry_growth okSynth mroSub baseState 0 defaultOpts [1] (by decide) 1
      {1} rfl⟩

end DataclassPatch
